import Mathlib

/-!
Verification of the AI_Hype_Hunter core: the portfolio ledger
(`src/database.py`, `src/portfolio.py`), the hype-metrics engine
(`src/hype_scanner.py`) and the ATR risk-sizing block (`app.py`, tab_risk).

Modelling conventions (shallow embedding):
* Python floats are modelled as exact rationals (ℚ); `round(x, 2)` is
  modelled by `round2` below, `int(x)` by `pyInt` (truncation toward zero).
* The SQLite `portfolio` table is a `List Position` in insertion (rowid)
  order; `query(...).first()` is `List.find?`; an in-place update of a row
  object is `updateFirst`; `db.delete` is `deleteFirst`; `db.add` appends.
  The session's read-modify-write sequence is modelled by threading the
  list through the same steps in the same order as the source.
* A Python `ZeroDivisionError` that the source catches (rolling back and
  returning failure, or returning `None`) is modelled by an explicit
  zero-denominator test selecting that same failure result.
* The wall clock that `datetime.now` supplies is passed explicitly: a flag
  `lastBeforeToday` for `last_candle_date < now.date()` plus the current
  hour and minute.
-/

namespace HypeHunter

/-- Row of the `portfolio` table (database.py, class Position); the `id` and
`date_acquired` columns are represented by list position / omitted. -/
structure Position where
  ticker : String
  cost : ℚ
  quantity : ℚ
  target : ℚ
  status : String
deriving DecidableEq

/-- Row of the `journal` table (database.py, class Trade); the `id` and
`date` columns are represented by list position / omitted. -/
structure Trade where
  ticker : String
  action : String
  quantity : ℚ
  entry_price : ℚ
  exit_price : ℚ
  pnl_pct : ℚ
  pnl_abs : ℚ
  reason : String
deriving DecidableEq

/-- The persistent store: `portfolio` and `journal` tables in rowid order. -/
structure Ledger where
  portfolio : List Position
  journal : List Trade
deriving DecidableEq

/-- The membership test `Position.ticker.in_(["USD", "CASH"])` used by
execute_buy and execute_sell (portfolio.py lines 44 and 114). -/
def isCashTicker (t : String) : Bool :=
  t == "USD" || t == "CASH"

/-- Python `round(x, 2)`: rounding a value to two decimal places, modelled
with Mathlib's `round` on ℚ. -/
def round2 (x : ℚ) : ℚ :=
  ((round (x * 100) : ℤ) : ℚ) / 100

/-- Python `int(x)`: truncation toward zero. -/
def pyInt (x : ℚ) : ℤ :=
  Int.tdiv x.num (x.den : ℤ)

/-- In-place mutation of the first row matched by a query: the SQLAlchemy
pattern `row = query(...).first(); row.field = ...`. -/
def updateFirst {α : Type} (p : α → Bool) (f : α → α) : List α → List α
  | [] => []
  | x :: xs => if p x then f x :: xs else x :: updateFirst p f xs

/-- Deletion of the first row matched by a query: `db.delete(row)`. -/
def deleteFirst {α : Type} (p : α → Bool) : List α → List α
  | [] => []
  | x :: xs => if p x then xs else x :: deleteFirst p xs

/-- database.py `init_db`: seeds `Position(ticker="EUR", cost=1.0,
quantity=5000.0, target=0.0, status="Liquid")` when the portfolio table is
entirely empty. -/
def init_db (L : Ledger) : Ledger :=
  if L.portfolio.length = 0 then
    { portfolio := [⟨"EUR", 1, 5000, 0, "Liquid"⟩], journal := L.journal }
  else L

/-- Contribution of one row to the `cash` accumulator of
get_equity_summary's loop (portfolio.py lines 19-21). -/
def cashContrib (p : Position) : ℚ :=
  if isCashTicker p.ticker then p.quantity else 0

/-- Contribution of one row to the `invested` accumulator of
get_equity_summary's loop (portfolio.py lines 22-24). -/
def investedContrib (p : Position) : ℚ :=
  if isCashTicker p.ticker then 0
  else if 0 < p.quantity then p.cost * p.quantity else 0

/-- Total of the `cash` accumulator over the whole portfolio table. -/
def totalCash (l : List Position) : ℚ :=
  (l.map cashContrib).sum

/-- Total of the `invested` accumulator over the whole portfolio table. -/
def totalInvested (l : List Position) : ℚ :=
  (l.map investedContrib).sum

/-- Result record of PortfolioManager.get_equity_summary. -/
structure EquitySummary where
  total_equity : ℚ
  cash : ℚ
  invested : ℚ
deriving DecidableEq

/-- portfolio.py PortfolioManager.get_equity_summary. -/
def get_equity_summary (L : Ledger) : EquitySummary :=
  { total_equity := round2 (totalCash L.portfolio + totalInvested L.portfolio)
    cash := round2 (totalCash L.portfolio)
    invested := round2 (totalInvested L.portfolio) }

/-- portfolio.py PortfolioManager.execute_buy.  The `existing.quantity +
quantity = 0` test models the `ZeroDivisionError` that `total_cost /
new_qty` would raise, which the surrounding `except` turns into a rollback
and `False`. -/
def execute_buy (L : Ledger) (ticker : String) (price quantity target : ℚ)
    (reason : String) : Bool × Ledger :=
  if quantity ≤ 0 then (false, L)
  else
    let cost_of_trade := price * quantity
    match L.portfolio.find? (fun p => isCashTicker p.ticker) with
    | none => (false, L)
    | some cash_pos =>
      if cash_pos.quantity < cost_of_trade then (false, L)
      else
        let port1 := updateFirst (fun p => isCashTicker p.ticker)
          (fun p => { p with quantity := p.quantity - cost_of_trade }) L.portfolio
        match port1.find? (fun p => p.ticker == ticker) with
        | some existing =>
          if existing.quantity + quantity = 0 then (false, L)
          else
            (true,
              { portfolio :=
                  updateFirst (fun p => p.ticker == ticker)
                    (fun p =>
                      { p with
                        cost := (p.cost * p.quantity + cost_of_trade) / (p.quantity + quantity)
                        quantity := p.quantity + quantity }) port1
                journal := L.journal ++ [⟨ticker, "BUY", quantity, price, 0, 0, 0, reason⟩] })
        | none =>
          (true,
            { portfolio := port1 ++ [⟨ticker, price, quantity, target, "Open"⟩]
              journal := L.journal ++ [⟨ticker, "BUY", quantity, price, 0, 0, 0, reason⟩] })

/-- Python truthiness resolution of `quantity if quantity and quantity <
pos.quantity else pos.quantity` (portfolio.py line 93). -/
def qtyToSell (quantity : Option ℚ) (held : ℚ) : ℚ :=
  match quantity with
  | none => held
  | some q => if q ≠ 0 ∧ q < held then q else held

/-- portfolio.py PortfolioManager.execute_sell. -/
def execute_sell (L : Ledger) (ticker : String) (quantity : Option ℚ)
    (price : ℚ) (reason : String) : Bool × Ledger :=
  match L.portfolio.find? (fun p => p.ticker == ticker) with
  | none => (false, L)
  | some pos =>
    if pos.quantity ≤ 0 then (false, L)
    else
      let qty_to_sell := qtyToSell quantity pos.quantity
      if qty_to_sell ≤ 0 then (false, L)
      else
        let sale_proceeds := price * qty_to_sell
        let pnl_abs := sale_proceeds - pos.cost * qty_to_sell
        let pnl_pct := if 0 < pos.cost then (price - pos.cost) / pos.cost * 100 else 0
        let action_type :=
          if pos.quantity - qty_to_sell = 0 then "SELL (Full)" else "TRIM"
        let port2 :=
          if pos.quantity - qty_to_sell = 0 then
            deleteFirst (fun p => p.ticker == ticker) L.portfolio
          else
            updateFirst (fun p => p.ticker == ticker)
              (fun p => { p with quantity := p.quantity - qty_to_sell, status := "Trimmed" })
              L.portfolio
        let port3 :=
          match port2.find? (fun p => isCashTicker p.ticker) with
          | some _ =>
            updateFirst (fun p => isCashTicker p.ticker)
              (fun p => { p with quantity := p.quantity + sale_proceeds }) port2
          | none => port2 ++ [⟨"USD", 1, sale_proceeds, 0, "Liquid"⟩]
        (true,
          { portfolio := port3
            journal := L.journal ++
              [⟨ticker, action_type, qty_to_sell, pos.cost, price,
                round2 pnl_pct, round2 pnl_abs, reason⟩] })

/-- First U-curve segment (hype_scanner.py line 36):
`max(0.01, (elapsed_mins / 30.0) * 0.20)`. -/
def seg1 (e : ℚ) : ℚ :=
  max (1/100) (e / 30 * (20/100))

/-- Second U-curve segment (line 38): `0.20 + ((elapsed_mins - 30) / 60.0) * 0.15`. -/
def seg2 (e : ℚ) : ℚ :=
  20/100 + (e - 30) / 60 * (15/100)

/-- Third U-curve segment (line 40): `0.35 + ((elapsed_mins - 90) / 240.0) * 0.40`. -/
def seg3 (e : ℚ) : ℚ :=
  35/100 + (e - 90) / 240 * (40/100)

/-- Fourth U-curve segment (line 42): `0.75 + ((elapsed_mins - 330) / 60.0) * 0.25`. -/
def seg4 (e : ℚ) : ℚ :=
  75/100 + (e - 330) / 60 * (25/100)

/-- The institutional U-curve bucket dispatch of get_tod_weight
(hype_scanner.py lines 35-42) on elapsed session minutes. -/
def uCurve (e : ℕ) : ℚ :=
  if e ≤ 30 then seg1 e
  else if e ≤ 90 then seg2 e
  else if e ≤ 330 then seg3 e
  else seg4 e

/-- hype_scanner.py HypeScanner.get_tod_weight.  `lastBeforeToday` is the
comparison `last_candle_date < now.date()`; `hour`/`minute` are the current
US/Eastern wall-clock fields. -/
def get_tod_weight (lastBeforeToday : Bool) (hour minute : ℕ) : ℚ :=
  if lastBeforeToday then 1
  else if hour < 9 ∨ (hour = 9 ∧ minute < 30) then 1
  else if 16 ≤ hour then 1
  else uCurve (hour * 60 + minute - (9 * 60 + 30))

/-- One daily bar of the fetched history; only the columns the scanner
reads (Close, Volume). -/
structure Bar where
  close : ℚ
  volume : ℚ
deriving DecidableEq

/-- The result dict of get_hype_metrics. -/
structure HypeMetrics where
  ticker : String
  price : ℚ
  rvol : ℚ
  roc_5_days : ℚ
  current_volume : ℤ
  expected_volume : ℤ
deriving DecidableEq

/-- `hist['Volume'].iloc[:-1].tail(20)`: the volumes of all bars but the
last, restricted to the final (up to) 20 of those. -/
def prevVols (bars : List Bar) : List ℚ :=
  let v := bars.dropLast.map Bar.volume
  v.drop (v.length - 20)

/-- `hist['Volume'].iloc[:-1].tail(20).mean()`: the trailing average
volume (hype_scanner.py line 66). -/
def avg_vol (bars : List Bar) : ℚ :=
  (prevVols bars).sum / ((prevVols bars).length : ℚ)

/-- `hist['Volume'].iloc[-1]`: the most recent bar's volume. -/
def current_vol (bars : List Bar) : ℚ :=
  ((bars.getLast?).map Bar.volume).getD 0

/-- `avg_vol * tod_weight` (hype_scanner.py line 73). -/
def expected_vol (bars : List Bar) (lastBeforeToday : Bool) (hour minute : ℕ) : ℚ :=
  avg_vol bars * get_tod_weight lastBeforeToday hour minute

/-- hype_scanner.py HypeScanner.get_hype_metrics, with the fetched history
and the wall clock passed explicitly.  The `price_5d_ago = 0` test models
the `ZeroDivisionError` in the ROC computation, which the surrounding
`except` turns into `None`. -/
def get_hype_metrics (bars : List Bar) (lastBeforeToday : Bool) (hour minute : ℕ)
    (ticker : String) : Option HypeMetrics :=
  if bars.length < 6 then none
  else
    let current_price := ((bars.getLast?).map Bar.close).getD 0
    let price_5d_ago := ((bars[bars.length - 6]?).map Bar.close).getD 0
    if price_5d_ago = 0 then none
    else
      let roc_5d := (current_price - price_5d_ago) / price_5d_ago * 100
      if avg_vol bars = 0 then none
      else
        let ev := expected_vol bars lastBeforeToday hour minute
        let rvol := if 0 < ev then current_vol bars / ev else 0
        some ⟨ticker, round2 current_price, round2 rvol, round2 roc_5d,
          pyInt (current_vol bars), pyInt ev⟩

/-- A 7-bar history with constant close 10 and volume 100. -/
def bars7 : List Bar :=
  [⟨10, 100⟩, ⟨10, 100⟩, ⟨10, 100⟩, ⟨10, 100⟩, ⟨10, 100⟩, ⟨10, 100⟩, ⟨10, 100⟩]

/-- A 6-bar history whose volumes are all zero. -/
def barsZ6 : List Bar :=
  [⟨1, 0⟩, ⟨1, 0⟩, ⟨1, 0⟩, ⟨1, 0⟩, ⟨1, 0⟩, ⟨1, 0⟩]

/-- One daily bar of the risk tab's fetched history (app.py line 237);
only the columns read in tab_risk (High, Low, Close). -/
structure RiskBar where
  high : ℚ
  low : ℚ
  close : ℚ
deriving DecidableEq

/-- `(stock['High'] - stock['Low']).mean()` (app.py line 239): the code's
"ATR" is the plain mean of the high−low range. -/
def atr_hl (bars : List RiskBar) : ℚ :=
  ((bars.map (fun b => b.high - b.low)).sum) / (bars.length : ℚ)

/-- The numeric fields of st.session_state['last_calc'] (app.py 249-253). -/
structure RiskCalc where
  price_eur : ℚ
  shares : ℤ
  stop_eur : ℚ
  max_loss : ℚ
deriving DecidableEq

/-- app.py tab_risk button block (lines 236-253): EUR conversion, stop at
price − ATR×2, shares = int(risk/(price−stop)) guarded by a positive
denominator. -/
def tab_risk_calc (bars : List RiskBar) (fx acc_size risk_pct : ℚ) : RiskCalc :=
  let price_usd := ((bars.getLast?).map RiskBar.close).getD 0
  let atr_usd := atr_hl bars
  let price_eur := price_usd * fx
  let atr_eur := atr_usd * fx
  let stop_eur := price_eur - atr_eur * 2
  let max_loss_eur := acc_size * (risk_pct / 100)
  let shares := if 0 < price_eur - stop_eur
    then pyInt (max_loss_eur / (price_eur - stop_eur)) else 0
  ⟨round2 price_eur, shares, round2 stop_eur, max_loss_eur⟩

/-- The spec's True-Range formula (spec §4.1, stated for comparison with
the code's `atr_hl`): max(high−low, |high−prev_close|, |low−prev_close|). -/
def spec_trueRange (prev_close : ℚ) (b : RiskBar) : ℚ :=
  max (b.high - b.low) (max |b.high - prev_close| |b.low - prev_close|)

/-- True-Range list for the bars after the first, per the spec's formula. -/
def spec_trAux (prev_close : ℚ) : List RiskBar → List ℚ
  | [] => []
  | b :: rest => spec_trueRange prev_close b :: spec_trAux b.close rest

/-- The spec's ATR (stated for comparison): simple mean of True Range,
first bar's TR = high−low. -/
def spec_atr : List RiskBar → ℚ
  | [] => 0
  | b :: rest =>
    (((b.high - b.low) :: spec_trAux b.close rest).sum) / ((rest.length + 1 : ℕ) : ℚ)

section ListLemmas

variable {α : Type} {p q : α → Bool} {f : α → α}

lemma updateFirst_of_find?_none :
    ∀ l : List α, l.find? p = none → updateFirst p f l = l := by
  intro l h
  induction l with
  | nil => rfl
  | cons x xs ih =>
    rw [List.find?_cons] at h
    cases hx : p x with
    | true => rw [hx] at h; exact absurd h (by simp)
    | false =>
      rw [hx] at h
      simp only [updateFirst, hx, Bool.false_eq_true, if_false, ih h]

lemma find?_updateFirst_self (hf : ∀ x, p x = true → p (f x) = true) :
    ∀ l : List α, ∀ x, l.find? p = some x →
      (updateFirst p f l).find? p = some (f x) := by
  intro l
  induction l with
  | nil => intro x h; simp at h
  | cons y ys ih =>
    intro x h
    rw [List.find?_cons] at h
    cases hy : p y with
    | true =>
      rw [hy] at h
      injection h with h
      subst h
      simp only [updateFirst, hy, if_true]
      rw [List.find?_cons, hf y hy]
    | false =>
      rw [hy] at h
      simp only [updateFirst, hy, Bool.false_eq_true, if_false]
      rw [List.find?_cons, hy]
      exact ih x h

lemma find?_updateFirst_disjoint
    (h : ∀ x, p x = true → q x = false ∧ q (f x) = false) :
    ∀ l : List α, (updateFirst p f l).find? q = l.find? q := by
  intro l
  induction l with
  | nil => rfl
  | cons y ys ih =>
    cases hy : p y with
    | true =>
      simp only [updateFirst, hy, if_true]
      rw [List.find?_cons, List.find?_cons, (h y hy).1, (h y hy).2]
    | false =>
      simp only [updateFirst, hy, Bool.false_eq_true, if_false]
      rw [List.find?_cons, List.find?_cons]
      cases hq : q y with
      | true => rfl
      | false => exact ih

lemma find?_append_left :
    ∀ l₁ l₂ : List α, ∀ x, l₁.find? p = some x → (l₁ ++ l₂).find? p = some x := by
  intro l₁ l₂ x h
  induction l₁ with
  | nil => simp at h
  | cons y ys ih =>
    rw [List.find?_cons] at h
    rw [List.cons_append, List.find?_cons]
    cases hy : p y with
    | true => rw [hy] at h; exact h
    | false => rw [hy] at h; exact ih h

lemma find?_append_of_none :
    ∀ l₁ l₂ : List α, l₁.find? p = none → (l₁ ++ l₂).find? p = l₂.find? p := by
  intro l₁ l₂ h
  induction l₁ with
  | nil => rfl
  | cons y ys ih =>
    rw [List.find?_cons] at h
    rw [List.cons_append, List.find?_cons]
    cases hy : p y with
    | true => rw [hy] at h; exact absurd h (by simp)
    | false => rw [hy] at h; exact ih h

lemma updateFirst_append_left :
    ∀ l₁ l₂ : List α, ∀ x, l₁.find? p = some x →
      updateFirst p f (l₁ ++ l₂) = updateFirst p f l₁ ++ l₂ := by
  intro l₁ l₂ x h
  induction l₁ with
  | nil => simp at h
  | cons y ys ih =>
    rw [List.find?_cons] at h
    cases hy : p y with
    | true =>
      rw [List.cons_append]
      simp only [updateFirst, hy, if_true, List.cons_append]
    | false =>
      rw [hy] at h
      rw [List.cons_append]
      simp only [updateFirst, hy, Bool.false_eq_true, if_false, List.cons_append, ih h]

lemma sum_map_updateFirst (g : α → ℚ) :
    ∀ l : List α, ∀ x, l.find? p = some x →
      ((updateFirst p f l).map g).sum = (l.map g).sum - g x + g (f x) := by
  intro l
  induction l with
  | nil => intro x h; simp at h
  | cons y ys ih =>
    intro x h
    rw [List.find?_cons] at h
    cases hy : p y with
    | true =>
      rw [hy] at h
      injection h with h
      subst h
      simp only [updateFirst, hy, if_true, List.map_cons, List.sum_cons]
      ring
    | false =>
      rw [hy] at h
      simp only [updateFirst, hy, Bool.false_eq_true, if_false, List.map_cons,
        List.sum_cons, ih x h]
      ring

lemma sum_map_deleteFirst (g : α → ℚ) :
    ∀ l : List α, ∀ x, l.find? p = some x →
      ((deleteFirst p l).map g).sum = (l.map g).sum - g x := by
  intro l
  induction l with
  | nil => intro x h; simp at h
  | cons y ys ih =>
    intro x h
    rw [List.find?_cons] at h
    cases hy : p y with
    | true =>
      rw [hy] at h
      injection h with h
      subst h
      simp only [deleteFirst, hy, if_true, List.map_cons, List.sum_cons]
      ring
    | false =>
      rw [hy] at h
      simp only [deleteFirst, hy, Bool.false_eq_true, if_false, List.map_cons,
        List.sum_cons, ih x h]
      ring

lemma find?_deleteFirst_of_unique :
    ∀ l : List α, ∀ x, l.find? p = some x → (l.filter p).length ≤ 1 →
      (deleteFirst p l).find? p = none := by
  intro l
  induction l with
  | nil => intro x h; simp at h
  | cons y ys ih =>
    intro x h hlen
    rw [List.find?_cons] at h
    cases hy : p y with
    | true =>
      rw [List.filter_cons_of_pos hy, List.length_cons] at hlen
      have hnil : ys.filter p = [] := List.length_eq_zero.mp (by omega)
      simp only [deleteFirst, hy, if_true]
      rw [List.find?_eq_none]
      intro a ha
      have := List.filter_eq_nil_iff.mp hnil a ha
      simpa using this
    | false =>
      rw [hy] at h
      rw [List.filter_cons_of_neg (by simp [hy])] at hlen
      simp only [deleteFirst, hy, Bool.false_eq_true, if_false]
      rw [List.find?_cons, hy]
      exact ih x h hlen

lemma find?_deleteFirst_disjoint (h : ∀ x, p x = true → q x = false) :
    ∀ l : List α, (deleteFirst p l).find? q = l.find? q := by
  intro l
  induction l with
  | nil => rfl
  | cons y ys ih =>
    cases hy : p y with
    | true =>
      simp only [deleteFirst, hy, if_true]
      rw [List.find?_cons, h y hy]
    | false =>
      simp only [deleteFirst, hy, Bool.false_eq_true, if_false]
      rw [List.find?_cons, List.find?_cons]
      cases hq : q y with
      | true => rfl
      | false => exact ih

end ListLemmas

lemma cash_row_ne_ticker {t : String} (ht : isCashTicker t = false)
    (x : Position) (hx : isCashTicker x.ticker = true) : (x.ticker == t) = false := by
  cases hbe : x.ticker == t with
  | true =>
    have : x.ticker = t := by simpa using hbe
    rw [this] at hx
    rw [hx] at ht
    exact absurd ht (by simp)
  | false => rfl

lemma ticker_row_not_cash {t : String} (ht : isCashTicker t = false)
    (x : Position) (hx : (x.ticker == t) = true) : isCashTicker x.ticker = false := by
  have : x.ticker = t := by simpa using hx
  rw [this]
  exact ht

/-- Reduction of execute_buy on the success path that creates a new
Position row (no row with the bought ticker exists after the cash debit). -/
lemma execute_buy_new (L : Ledger) (t : String) (price quantity target : ℚ)
    (r : String) (c : Position)
    (hq : 0 < quantity)
    (hc : L.portfolio.find? (fun p => isCashTicker p.ticker) = some c)
    (hfunds : price * quantity ≤ c.quantity)
    (hnone : (updateFirst (fun p => isCashTicker p.ticker)
        (fun p => { p with quantity := p.quantity - price * quantity })
        L.portfolio).find? (fun p => p.ticker == t) = none) :
    execute_buy L t price quantity target r =
      (true,
        { portfolio := updateFirst (fun p => isCashTicker p.ticker)
            (fun p => { p with quantity := p.quantity - price * quantity })
            L.portfolio ++ [⟨t, price, quantity, target, "Open"⟩]
          journal := L.journal ++ [⟨t, "BUY", quantity, price, 0, 0, 0, r⟩] }) := by
  have hq' : ¬ quantity ≤ 0 := not_le.mpr hq
  have hf' : ¬ c.quantity < price * quantity := not_lt.mpr hfunds
  simp only [execute_buy, hq', if_false, hc, hf', hnone]

/-- Reduction of execute_buy on the success path that re-averages an
existing Position row. -/
lemma execute_buy_existing (L : Ledger) (t : String) (price quantity target : ℚ)
    (r : String) (c x : Position)
    (hq : 0 < quantity)
    (hc : L.portfolio.find? (fun p => isCashTicker p.ticker) = some c)
    (hfunds : price * quantity ≤ c.quantity)
    (hsome : (updateFirst (fun p => isCashTicker p.ticker)
        (fun p => { p with quantity := p.quantity - price * quantity })
        L.portfolio).find? (fun p => p.ticker == t) = some x)
    (hne : ¬ x.quantity + quantity = 0) :
    execute_buy L t price quantity target r =
      (true,
        { portfolio :=
            updateFirst (fun p => p.ticker == t)
              (fun p =>
                { p with
                  cost := (p.cost * p.quantity + price * quantity) / (p.quantity + quantity)
                  quantity := p.quantity + quantity })
              (updateFirst (fun p => isCashTicker p.ticker)
                (fun p => { p with quantity := p.quantity - price * quantity })
                L.portfolio)
          journal := L.journal ++ [⟨t, "BUY", quantity, price, 0, 0, 0, r⟩] }) := by
  have hq' : ¬ quantity ≤ 0 := not_le.mpr hq
  have hf' : ¬ c.quantity < price * quantity := not_lt.mpr hfunds
  simp only [execute_buy, hq', if_false, hc, hf', hsome, hne]

/-- Reduction of execute_sell on the full-liquidation success path. -/
lemma execute_sell_full (L : Ledger) (t : String) (qopt : Option ℚ)
    (price : ℚ) (r : String) (pos : Position)
    (hfind : L.portfolio.find? (fun p => p.ticker == t) = some pos)
    (hq : 0 < pos.quantity)
    (hsell : qtyToSell qopt pos.quantity = pos.quantity) :
    execute_sell L t qopt price r =
      (true,
        { portfolio :=
            match (deleteFirst (fun p => p.ticker == t) L.portfolio).find?
                (fun p => isCashTicker p.ticker) with
            | some _ =>
              updateFirst (fun p => isCashTicker p.ticker)
                (fun p => { p with quantity := p.quantity + price * pos.quantity })
                (deleteFirst (fun p => p.ticker == t) L.portfolio)
            | none =>
              deleteFirst (fun p => p.ticker == t) L.portfolio ++
                [⟨"USD", 1, price * pos.quantity, 0, "Liquid"⟩]
          journal := L.journal ++
            [⟨t, "SELL (Full)", pos.quantity, pos.cost, price,
              round2 (if 0 < pos.cost then (price - pos.cost) / pos.cost * 100 else 0),
              round2 (price * pos.quantity - pos.cost * pos.quantity), r⟩] }) := by
  have hq' : ¬ pos.quantity ≤ 0 := not_le.mpr hq
  simp only [execute_sell, hfind, hsell, hq', if_false, sub_self, if_true]

/-- C1: first initialization on an empty store seeds a single row with
ticker "EUR" (database.py line 57), but the cash recognizer shared by
execute_buy, execute_sell and get_equity_summary accepts only "USD" and
"CASH"; immediately after init_db no cash row is found and
get_equity_summary reports cash = 0 (with the 5000 seed counted as
invested capital) — contradicting the claim that the seeded row is
recognized as cash and reported as a 5000 cash balance. -/
theorem init_db_seed_not_recognized_as_cash :
    (init_db ⟨[], []⟩).portfolio = [⟨"EUR", 1, 5000, 0, "Liquid"⟩] ∧
    isCashTicker "EUR" = false ∧
    (init_db ⟨[], []⟩).portfolio.find? (fun p => isCashTicker p.ticker) = none ∧
    get_equity_summary (init_db ⟨[], []⟩) = ⟨5000, 0, 5000⟩ := by
  refine ⟨by decide, by decide, by decide, ?_⟩
  have h1 : totalCash (init_db ⟨[], []⟩).portfolio = 0 := by
    norm_num [totalCash, cashContrib, isCashTicker, init_db]
    exact ⟨by decide, by decide⟩
  have h2 : totalInvested (init_db ⟨[], []⟩).portfolio = 5000 := by
    norm_num [totalInvested, investedContrib, isCashTicker, init_db]
    exact ⟨by decide, by decide⟩
  unfold get_equity_summary
  rw [h1, h2]
  norm_num [round2, round_eq, EquitySummary.mk.injEq]

/-- C3: whenever the first cash row has quantity < price×quantity (in
particular whenever no cash row exists at all), execute_buy returns
failure and the ledger — every portfolio row and the journal — is exactly
the state passed in. -/
theorem buy_insufficient_cash_no_mutation (L : Ledger) (t : String)
    (price quantity target : ℚ) (r : String)
    (hcash : ∀ c, L.portfolio.find? (fun p => isCashTicker p.ticker) = some c →
      c.quantity < price * quantity) :
    execute_buy L t price quantity target r = (false, L) := by
  by_cases hq : quantity ≤ 0
  · simp only [execute_buy, hq, if_true]
  · cases hc : L.portfolio.find? (fun p => isCashTicker p.ticker) with
    | none => simp only [execute_buy, hq, if_false, hc]
    | some c => simp only [execute_buy, hq, if_false, hc, hcash c hc, if_true]

/-- Witness for C3 at a concrete ledger: 5 units of cash cannot pay for a
10×1 buy, and the call leaves the ledger untouched. -/
theorem buy_insufficient_cash_no_mutation_witness :
    execute_buy ⟨[⟨"USD", 1, 5, 0, "Liquid"⟩], []⟩ "AAPL" 10 1 0 "r" =
      (false, ⟨[⟨"USD", 1, 5, 0, "Liquid"⟩], []⟩) := by
  apply buy_insufficient_cash_no_mutation
  intro c hc
  have hc' : some (⟨"USD", 1, 5, 0, "Liquid"⟩ : Position) = some c := by
    rw [← hc]; decide
  injection hc' with h
  rw [← h]
  norm_num

/-- C4: starting from any ledger whose cash row covers both trades and
which holds no position for the (non-cash) ticker, two successive
successful buys at (P1,Q1) then (P2,Q2) leave a Position with quantity
Q1+Q2 and weighted-average cost (P1·Q1+P2·Q2)/(Q1+Q2), and the cash row
is debited by exactly P1·Q1+P2·Q2. -/
theorem buy_twice_weighted_average (L : Ledger) (t : String)
    (P1 Q1 P2 Q2 : ℚ) (r1 r2 : String) (c : Position)
    (ht : isCashTicker t = false)
    (hnone : L.portfolio.find? (fun p : Position => p.ticker == t) = none)
    (hc : L.portfolio.find? (fun p : Position => isCashTicker p.ticker) = some c)
    (hP1 : 0 < P1) (hQ1 : 0 < Q1) (hP2 : 0 < P2) (hQ2 : 0 < Q2)
    (hfunds : P1 * Q1 + P2 * Q2 ≤ c.quantity) :
    (execute_buy L t P1 Q1 0 r1).1 = true ∧
    (execute_buy (execute_buy L t P1 Q1 0 r1).2 t P2 Q2 0 r2).1 = true ∧
    (execute_buy (execute_buy L t P1 Q1 0 r1).2 t P2 Q2 0 r2).2.portfolio.find?
        (fun p : Position => p.ticker == t) =
      some ⟨t, (P1 * Q1 + P2 * Q2) / (Q1 + Q2), Q1 + Q2, 0, "Open"⟩ ∧
    (execute_buy (execute_buy L t P1 Q1 0 r1).2 t P2 Q2 0 r2).2.portfolio.find?
        (fun p : Position => isCashTicker p.ticker) =
      some { c with quantity := c.quantity - P1 * Q1 - P2 * Q2 } := by
  have hP2Q2 : 0 < P2 * Q2 := mul_pos hP2 hQ2
  have hP1Q1 : 0 < P1 * Q1 := mul_pos hP1 hQ1
  have hfunds1 : P1 * Q1 ≤ c.quantity := by linarith
  have hdisj1 : ∀ x : Position, isCashTicker x.ticker = true →
      (x.ticker == t) = false ∧
      ((({ x with quantity := x.quantity - P1 * Q1 } : Position)).ticker == t) = false :=
    fun x hx => ⟨cash_row_ne_ticker ht x hx, cash_row_ne_ticker ht _ hx⟩
  have hfind1 :
      (updateFirst (fun p : Position => isCashTicker p.ticker)
        (fun p : Position => { p with quantity := p.quantity - P1 * Q1 }) L.portfolio).find?
        (fun p : Position => p.ticker == t) = none := by
    rw [find?_updateFirst_disjoint hdisj1]
    exact hnone
  have step1 := execute_buy_new L t P1 Q1 0 r1 c hQ1 hc hfunds1 hfind1
  refine ⟨by rw [step1], ?_⟩
  rw [step1]
  have hkeep1 : ∀ x : Position, (fun p : Position => isCashTicker p.ticker) x = true →
      (fun p : Position => isCashTicker p.ticker)
        (({ x with quantity := x.quantity - P1 * Q1 } : Position)) = true :=
    fun x hx => hx
  have hcash1 :
      (updateFirst (fun p : Position => isCashTicker p.ticker)
        (fun p : Position => { p with quantity := p.quantity - P1 * Q1 }) L.portfolio).find?
        (fun p : Position => isCashTicker p.ticker) =
      some { c with quantity := c.quantity - P1 * Q1 } :=
    find?_updateFirst_self hkeep1 L.portfolio c hc
  have hcash1' :
      ((updateFirst (fun p : Position => isCashTicker p.ticker)
          (fun p : Position => { p with quantity := p.quantity - P1 * Q1 }) L.portfolio) ++
        [(⟨t, P1, Q1, 0, "Open"⟩ : Position)]).find? (fun p : Position => isCashTicker p.ticker) =
      some { c with quantity := c.quantity - P1 * Q1 } :=
    find?_append_left _ _ _ hcash1
  have hfunds2 :
      P2 * Q2 ≤ ({ c with quantity := c.quantity - P1 * Q1 } : Position).quantity := by
    show P2 * Q2 ≤ c.quantity - P1 * Q1
    linarith
  have hupd2 :
      updateFirst (fun p : Position => isCashTicker p.ticker)
        (fun p : Position => { p with quantity := p.quantity - P2 * Q2 })
        ((updateFirst (fun p : Position => isCashTicker p.ticker)
            (fun p : Position => { p with quantity := p.quantity - P1 * Q1 }) L.portfolio) ++
          [(⟨t, P1, Q1, 0, "Open"⟩ : Position)]) =
      (updateFirst (fun p : Position => isCashTicker p.ticker)
        (fun p : Position => { p with quantity := p.quantity - P2 * Q2 })
        (updateFirst (fun p : Position => isCashTicker p.ticker)
          (fun p : Position => { p with quantity := p.quantity - P1 * Q1 }) L.portfolio)) ++
        [(⟨t, P1, Q1, 0, "Open"⟩ : Position)] :=
    updateFirst_append_left _ _ _ hcash1
  have hdisj2 : ∀ x : Position, isCashTicker x.ticker = true →
      (x.ticker == t) = false ∧
      ((({ x with quantity := x.quantity - P2 * Q2 } : Position)).ticker == t) = false :=
    fun x hx => ⟨cash_row_ne_ticker ht x hx, cash_row_ne_ticker ht _ hx⟩
  have hfind2 :
      (updateFirst (fun p : Position => isCashTicker p.ticker)
        (fun p : Position => { p with quantity := p.quantity - P2 * Q2 })
        ((updateFirst (fun p : Position => isCashTicker p.ticker)
            (fun p : Position => { p with quantity := p.quantity - P1 * Q1 }) L.portfolio) ++
          [(⟨t, P1, Q1, 0, "Open"⟩ : Position)])).find? (fun p : Position => p.ticker == t) =
      some ⟨t, P1, Q1, 0, "Open"⟩ := by
    rw [hupd2]
    rw [find?_append_of_none _ _ (by rw [find?_updateFirst_disjoint hdisj2,
      find?_updateFirst_disjoint hdisj1]; exact hnone)]
    rw [List.find?_cons]
    simp
  have hne2 : ¬ (⟨t, P1, Q1, 0, "Open"⟩ : Position).quantity + Q2 = 0 := by
    show ¬ Q1 + Q2 = 0
    intro h
    linarith
  have step2 := execute_buy_existing
    ⟨(updateFirst (fun p : Position => isCashTicker p.ticker)
        (fun p : Position => { p with quantity := p.quantity - P1 * Q1 }) L.portfolio) ++
      [(⟨t, P1, Q1, 0, "Open"⟩ : Position)],
      L.journal ++ [⟨t, "BUY", Q1, P1, 0, 0, 0, r1⟩]⟩
    t P2 Q2 0 r2 { c with quantity := c.quantity - P1 * Q1 } ⟨t, P1, Q1, 0, "Open"⟩
    hQ2 hcash1' hfunds2 hfind2 hne2
  refine ⟨by rw [step2], ?_, ?_⟩
  · rw [step2]
    have hkeepT : ∀ x : Position, (fun p : Position => p.ticker == t) x = true →
        (fun p : Position => p.ticker == t)
          (({ x with
              cost := (x.cost * x.quantity + P2 * Q2) / (x.quantity + Q2)
              quantity := x.quantity + Q2 } : Position)) = true :=
      fun x hx => hx
    have := find?_updateFirst_self hkeepT _ _ hfind2
    rw [this]
  · rw [step2]
    have hdisjT : ∀ x : Position, (x.ticker == t) = true →
        isCashTicker x.ticker = false ∧
        isCashTicker (({ x with
            cost := (x.cost * x.quantity + P2 * Q2) / (x.quantity + Q2)
            quantity := x.quantity + Q2 } : Position)).ticker = false :=
      fun x hx => ⟨ticker_row_not_cash ht x hx, ticker_row_not_cash ht x hx⟩
    rw [find?_updateFirst_disjoint hdisjT, hupd2]
    have hkeep2 : ∀ x : Position, (fun p : Position => isCashTicker p.ticker) x = true →
        (fun p : Position => isCashTicker p.ticker)
          (({ x with quantity := x.quantity - P2 * Q2 } : Position)) = true :=
      fun x hx => hx
    have := find?_updateFirst_self hkeep2 _ _ hcash1
    rw [find?_append_left _ _ _ this]

/-- Witness for C4: the worked example of spec §8 — starting cash 10000,
buy 10 at 100 then 10 more at 120 gives cost 110, quantity 20, cash 7800. -/
theorem buy_twice_weighted_average_witness :
    (execute_buy ⟨[⟨"USD", 1, 10000, 0, "Liquid"⟩], []⟩ "AAPL" 100 10 0 "a").1 = true ∧
    (execute_buy (execute_buy ⟨[⟨"USD", 1, 10000, 0, "Liquid"⟩], []⟩
        "AAPL" 100 10 0 "a").2 "AAPL" 120 10 0 "b").1 = true ∧
    (execute_buy (execute_buy ⟨[⟨"USD", 1, 10000, 0, "Liquid"⟩], []⟩
        "AAPL" 100 10 0 "a").2 "AAPL" 120 10 0 "b").2.portfolio.find?
        (fun p => p.ticker == "AAPL") = some ⟨"AAPL", 110, 20, 0, "Open"⟩ ∧
    (execute_buy (execute_buy ⟨[⟨"USD", 1, 10000, 0, "Liquid"⟩], []⟩
        "AAPL" 100 10 0 "a").2 "AAPL" 120 10 0 "b").2.portfolio.find?
        (fun p : Position => isCashTicker p.ticker) = some ⟨"USD", 1, 7800, 0, "Liquid"⟩ := by
  have h := buy_twice_weighted_average ⟨[⟨"USD", 1, 10000, 0, "Liquid"⟩], []⟩
    "AAPL" 100 10 120 10 "a" "b" ⟨"USD", 1, 10000, 0, "Liquid"⟩
    (by decide) (by decide) (by decide)
    (by norm_num) (by norm_num) (by norm_num) (by norm_num) (by norm_num)
  refine ⟨h.1, h.2.1, ?_, ?_⟩
  · rw [h.2.2.1]
    norm_num [Position.mk.injEq]
  · rw [h.2.2.2]
    norm_num [Position.mk.injEq]

lemma totalCash_append (l₁ l₂ : List Position) :
    totalCash (l₁ ++ l₂) = totalCash l₁ + totalCash l₂ := by
  simp [totalCash]

lemma totalInvested_append (l₁ l₂ : List Position) :
    totalInvested (l₁ ++ l₂) = totalInvested l₁ + totalInvested l₂ := by
  simp [totalInvested]

lemma totalCash_updateFirst {p : Position → Bool} {f : Position → Position}
    (l : List Position) (x : Position) (h : l.find? p = some x) :
    totalCash (updateFirst p f l) = totalCash l - cashContrib x + cashContrib (f x) :=
  sum_map_updateFirst cashContrib l x h

lemma totalInvested_updateFirst {p : Position → Bool} {f : Position → Position}
    (l : List Position) (x : Position) (h : l.find? p = some x) :
    totalInvested (updateFirst p f l) =
      totalInvested l - investedContrib x + investedContrib (f x) :=
  sum_map_updateFirst investedContrib l x h

lemma totalCash_deleteFirst {p : Position → Bool}
    (l : List Position) (x : Position) (h : l.find? p = some x) :
    totalCash (deleteFirst p l) = totalCash l - cashContrib x :=
  sum_map_deleteFirst cashContrib l x h

lemma totalInvested_deleteFirst {p : Position → Bool}
    (l : List Position) (x : Position) (h : l.find? p = some x) :
    totalInvested (deleteFirst p l) = totalInvested l - investedContrib x :=
  sum_map_deleteFirst investedContrib l x h

/-- C10: every successful buy of a non-cash ticker moves exactly
price×quantity from the cash total to the invested-at-cost total of
get_equity_summary, so total_equity is unchanged — both on a first buy and
on a re-averaging buy. -/
theorem buy_preserves_total_equity (L : Ledger) (t : String)
    (P Q target : ℚ) (r : String) (c : Position)
    (ht : isCashTicker t = false)
    (hc : L.portfolio.find? (fun p : Position => isCashTicker p.ticker) = some c)
    (hP : 0 < P) (hQ : 0 < Q)
    (hfunds : P * Q ≤ c.quantity)
    (hpos : ∀ x, L.portfolio.find? (fun p : Position => p.ticker == t) = some x →
      0 < x.quantity) :
    (execute_buy L t P Q target r).1 = true ∧
    totalCash (execute_buy L t P Q target r).2.portfolio = totalCash L.portfolio - P * Q ∧
    totalInvested (execute_buy L t P Q target r).2.portfolio =
      totalInvested L.portfolio + P * Q ∧
    (get_equity_summary (execute_buy L t P Q target r).2).total_equity =
      (get_equity_summary L).total_equity := by
  have hcashP0 := List.find?_some hc
  have hcashP : isCashTicker c.ticker = true := hcashP0
  have hTC1 : totalCash (updateFirst (fun p : Position => isCashTicker p.ticker)
      (fun p : Position => { p with quantity := p.quantity - P * Q }) L.portfolio) =
      totalCash L.portfolio - P * Q := by
    rw [totalCash_updateFirst L.portfolio c hc]
    simp [cashContrib, hcashP]
  have hTI1 : totalInvested (updateFirst (fun p : Position => isCashTicker p.ticker)
      (fun p : Position => { p with quantity := p.quantity - P * Q }) L.portfolio) =
      totalInvested L.portfolio := by
    rw [totalInvested_updateFirst L.portfolio c hc]
    simp [investedContrib, hcashP]
  have hdisj : ∀ x : Position, isCashTicker x.ticker = true →
      (x.ticker == t) = false ∧
      ((({ x with quantity := x.quantity - P * Q } : Position)).ticker == t) = false :=
    fun x hx => ⟨cash_row_ne_ticker ht x hx, cash_row_ne_ticker ht _ hx⟩
  cases hfind : (updateFirst (fun p : Position => isCashTicker p.ticker)
      (fun p : Position => { p with quantity := p.quantity - P * Q }) L.portfolio).find?
      (fun p : Position => p.ticker == t) with
  | none =>
    have step := execute_buy_new L t P Q target r c hQ hc hfunds hfind
    have hTC2 : totalCash (execute_buy L t P Q target r).2.portfolio =
        totalCash L.portfolio - P * Q := by
      rw [step]
      show totalCash (_ ++ [(⟨t, P, Q, target, "Open"⟩ : Position)]) = _
      rw [totalCash_append, hTC1]
      simp [totalCash, cashContrib, ht]
    have hTI2 : totalInvested (execute_buy L t P Q target r).2.portfolio =
        totalInvested L.portfolio + P * Q := by
      rw [step]
      show totalInvested (_ ++ [(⟨t, P, Q, target, "Open"⟩ : Position)]) = _
      rw [totalInvested_append, hTI1]
      simp [totalInvested, investedContrib, ht, hQ]
    refine ⟨by rw [step], hTC2, hTI2, ?_⟩
    simp only [get_equity_summary]
    rw [hTC2, hTI2]
    congr 1
    ring
  | some x =>
    have hx : L.portfolio.find? (fun p : Position => p.ticker == t) = some x := by
      rw [← find?_updateFirst_disjoint hdisj]
      exact hfind
    have hxq : 0 < x.quantity := hpos x hx
    have hxt0 := List.find?_some hfind
    have hxt : (x.ticker == t) = true := hxt0
    have hxNotCash : isCashTicker x.ticker = false := ticker_row_not_cash ht x hxt
    have hne : ¬ x.quantity + Q = 0 := by intro h; linarith
    have hQQ : x.quantity + Q ≠ 0 := hne
    have step := execute_buy_existing L t P Q target r c x hQ hc hfunds hfind hne
    have hTC2 : totalCash (execute_buy L t P Q target r).2.portfolio =
        totalCash L.portfolio - P * Q := by
      rw [step]
      show totalCash (updateFirst _ _ _) = _
      rw [totalCash_updateFirst _ x hfind, hTC1]
      simp [cashContrib, hxNotCash]
    have hTI2 : totalInvested (execute_buy L t P Q target r).2.portfolio =
        totalInvested L.portfolio + P * Q := by
      rw [step]
      show totalInvested (updateFirst _ _ _) = _
      rw [totalInvested_updateFirst _ x hfind, hTI1]
      have hinvx : investedContrib x = x.cost * x.quantity := by
        simp [investedContrib, hxNotCash, hxq]
      have hinvg : investedContrib
          ({ x with
              cost := (x.cost * x.quantity + P * Q) / (x.quantity + Q)
              quantity := x.quantity + Q } : Position) =
          x.cost * x.quantity + P * Q := by
        have hpos2 : 0 < x.quantity + Q := by linarith
        simp only [investedContrib, hxNotCash, Bool.false_eq_true, if_false, hpos2, if_true]
        exact div_mul_cancel₀ _ hQQ
      rw [hinvx, hinvg]
      ring
    refine ⟨by rw [step], hTC2, hTI2, ?_⟩
    simp only [get_equity_summary]
    rw [hTC2, hTI2]
    congr 1
    ring

/-- Witness for C10 at a concrete first buy: 10 shares at 100 out of
10000 cash moves 1000 from cash to invested and keeps total_equity. -/
theorem buy_preserves_total_equity_witness :
    (execute_buy ⟨[⟨"USD", 1, 10000, 0, "Liquid"⟩], []⟩ "AAPL" 100 10 0 "r").1 = true ∧
    totalCash (execute_buy ⟨[⟨"USD", 1, 10000, 0, "Liquid"⟩], []⟩
        "AAPL" 100 10 0 "r").2.portfolio =
      totalCash (⟨[⟨"USD", 1, 10000, 0, "Liquid"⟩], []⟩ : Ledger).portfolio - 100 * 10 ∧
    totalInvested (execute_buy ⟨[⟨"USD", 1, 10000, 0, "Liquid"⟩], []⟩
        "AAPL" 100 10 0 "r").2.portfolio =
      totalInvested (⟨[⟨"USD", 1, 10000, 0, "Liquid"⟩], []⟩ : Ledger).portfolio + 100 * 10 ∧
    (get_equity_summary (execute_buy ⟨[⟨"USD", 1, 10000, 0, "Liquid"⟩], []⟩
        "AAPL" 100 10 0 "r").2).total_equity =
      (get_equity_summary (⟨[⟨"USD", 1, 10000, 0, "Liquid"⟩], []⟩ : Ledger)).total_equity := by
  refine buy_preserves_total_equity _ "AAPL" 100 10 0 "r" ⟨"USD", 1, 10000, 0, "Liquid"⟩
    (by decide) (by decide) (by norm_num) (by norm_num) (by norm_num) ?_
  intro x hx
  have hnone : (⟨[⟨"USD", 1, 10000, 0, "Liquid"⟩], []⟩ : Ledger).portfolio.find?
      (fun p : Position => p.ticker == "AAPL") = none := by decide
  rw [hnone] at hx
  cases hx

/-- C5 (amended): a sell with quantity omitted or ≥ the held quantity H
sells exactly H (never negative), deletes the Position row, credits the
cash total by price×H, and records P&L percent equal to
(price−C)/C×100 rounded to two decimals when C > 0, and 0 when C ≤ 0. -/
theorem sell_full_liquidation (L : Ledger) (t : String) (price : ℚ)
    (qopt : Option ℚ) (r : String) (pos : Position)
    (ht : isCashTicker t = false)
    (hfind : L.portfolio.find? (fun p : Position => p.ticker == t) = some pos)
    (huniq : (L.portfolio.filter (fun p : Position => p.ticker == t)).length ≤ 1)
    (hq : 0 < pos.quantity)
    (hopt : qopt = none ∨ ∃ q, qopt = some q ∧ pos.quantity ≤ q) :
    (execute_sell L t qopt price r).1 = true ∧
    (execute_sell L t qopt price r).2.portfolio.find?
      (fun p : Position => p.ticker == t) = none ∧
    totalCash (execute_sell L t qopt price r).2.portfolio =
      totalCash L.portfolio + price * pos.quantity ∧
    (execute_sell L t qopt price r).2.journal =
      L.journal ++ [⟨t, "SELL (Full)", pos.quantity, pos.cost, price,
        round2 (if 0 < pos.cost then (price - pos.cost) / pos.cost * 100 else 0),
        round2 (price * pos.quantity - pos.cost * pos.quantity), r⟩] := by
  have hsell : qtyToSell qopt pos.quantity = pos.quantity := by
    rcases hopt with h | ⟨q, hqe, hge⟩
    · rw [h]; rfl
    · rw [hqe]
      show (if q ≠ 0 ∧ q < pos.quantity then q else pos.quantity) = pos.quantity
      rw [if_neg]
      intro hand
      exact absurd hand.2 (not_lt.mpr hge)
  have step := execute_sell_full L t qopt price r pos hfind hq hsell
  have hpt0 := List.find?_some hfind
  have hpt : (pos.ticker == t) = true := hpt0
  have hposNotCash : isCashTicker pos.ticker = false := ticker_row_not_cash ht pos hpt
  have hdelt : (deleteFirst (fun p : Position => p.ticker == t) L.portfolio).find?
      (fun p : Position => p.ticker == t) = none :=
    find?_deleteFirst_of_unique L.portfolio pos hfind huniq
  have hdelcash : totalCash (deleteFirst (fun p : Position => p.ticker == t) L.portfolio) =
      totalCash L.portfolio := by
    rw [totalCash_deleteFirst L.portfolio pos hfind]
    simp [cashContrib, hposNotCash]
  refine ⟨by rw [step], ?_, ?_, by rw [step]⟩
  · rw [step]
    cases hc2 : (deleteFirst (fun p : Position => p.ticker == t) L.portfolio).find?
        (fun p : Position => isCashTicker p.ticker) with
    | some c2 =>
      simp only [hc2]
      have hdisj : ∀ x : Position, isCashTicker x.ticker = true →
          (x.ticker == t) = false ∧
          ((({ x with quantity := x.quantity + price * pos.quantity } : Position)).ticker
            == t) = false :=
        fun x hx => ⟨cash_row_ne_ticker ht x hx, cash_row_ne_ticker ht _ hx⟩
      rw [find?_updateFirst_disjoint hdisj]
      exact hdelt
    | none =>
      simp only [hc2]
      rw [find?_append_of_none _ _ hdelt]
      rw [List.find?_cons,
        cash_row_ne_ticker ht ⟨"USD", 1, price * pos.quantity, 0, "Liquid"⟩ rfl]
      rfl
  · rw [step]
    cases hc2 : (deleteFirst (fun p : Position => p.ticker == t) L.portfolio).find?
        (fun p : Position => isCashTicker p.ticker) with
    | some c2 =>
      simp only [hc2]
      have hc2cash0 := List.find?_some hc2
      have hc2cash : isCashTicker c2.ticker = true := hc2cash0
      rw [totalCash_updateFirst _ c2 hc2, hdelcash]
      simp [cashContrib, hc2cash]
      ring
    | none =>
      simp only [hc2]
      rw [totalCash_append, hdelcash]
      simp [totalCash, cashContrib, isCashTicker]

/-- Witness for C5 at the spec §8 example: selling all 20 AAPL at 150 from
cost 110 deletes the position, credits 3000 of cash, and journals
pnl_pct = 36.36 and pnl_abs = 800. -/
theorem sell_full_liquidation_witness :
    (execute_sell ⟨[⟨"USD", 1, 7800, 0, "Liquid"⟩, ⟨"AAPL", 110, 20, 0, "Open"⟩], []⟩
        "AAPL" none 150 "r").1 = true ∧
    (execute_sell ⟨[⟨"USD", 1, 7800, 0, "Liquid"⟩, ⟨"AAPL", 110, 20, 0, "Open"⟩], []⟩
        "AAPL" none 150 "r").2.portfolio.find?
      (fun p : Position => p.ticker == "AAPL") = none ∧
    totalCash (execute_sell ⟨[⟨"USD", 1, 7800, 0, "Liquid"⟩, ⟨"AAPL", 110, 20, 0, "Open"⟩], []⟩
        "AAPL" none 150 "r").2.portfolio =
      totalCash [⟨"USD", 1, 7800, 0, "Liquid"⟩, ⟨"AAPL", 110, 20, 0, "Open"⟩] + 150 * 20 ∧
    (execute_sell ⟨[⟨"USD", 1, 7800, 0, "Liquid"⟩, ⟨"AAPL", 110, 20, 0, "Open"⟩], []⟩
        "AAPL" none 150 "r").2.journal =
      [⟨"AAPL", "SELL (Full)", 20, 110, 150, 3636/100, 800, "r"⟩] := by
  have h := sell_full_liquidation
    ⟨[⟨"USD", 1, 7800, 0, "Liquid"⟩, ⟨"AAPL", 110, 20, 0, "Open"⟩], []⟩
    "AAPL" 150 none "r" ⟨"AAPL", 110, 20, 0, "Open"⟩
    (by decide) (by decide) (by decide) (by norm_num) (Or.inl rfl)
  refine ⟨h.1, h.2.1, h.2.2.1, ?_⟩
  rw [h.2.2.2]
  simp only [List.nil_append]
  norm_num [round2, round_eq, Trade.mk.injEq]

/-- Counterexample for C5 as frozen: the claim says the recorded P&L
percent equals (price−C)/C×100 exactly, but the code stores
round(pnl_pct, 2); selling cost-3 stock at 4 records 33.33, not 100/3. -/
theorem sell_pnl_pct_exact_formula_counterexample :
    (execute_sell ⟨[⟨"AAPL", 3, 2, 0, "Open"⟩], []⟩ "AAPL" none 4 "r").2.journal.map
        Trade.pnl_pct = [3333/100] ∧
    (3333/100 : ℚ) ≠ (4 - 3) / 3 * 100 := by
  have step := execute_sell_full ⟨[⟨"AAPL", 3, 2, 0, "Open"⟩], []⟩ "AAPL" none 4 "r"
    ⟨"AAPL", 3, 2, 0, "Open"⟩ (by decide) (by norm_num) rfl
  constructor
  · rw [step]
    simp only [List.nil_append, List.map_cons, List.map_nil]
    norm_num [round2, round_eq]
  · norm_num

/-- C9: the full-liquidation journal row of execute_sell carries action
"SELL (Full)", not the documented "SELL" (database.py line 40 documents
the action column as `BUY, SELL, TRIM`); entry_price, exit_price and the
computed P&L are recorded as specified. -/
theorem sell_action_label_mismatch :
    (execute_sell ⟨[⟨"USD", 1, 0, 0, "Liquid"⟩, ⟨"TSLA", 10, 5, 0, "Open"⟩], []⟩
        "TSLA" none 12 "r").2.journal.map Trade.action = ["SELL (Full)"] ∧
    "SELL (Full)" ≠ "SELL" ∧
    (execute_sell ⟨[⟨"USD", 1, 0, 0, "Liquid"⟩, ⟨"TSLA", 10, 5, 0, "Open"⟩], []⟩
        "TSLA" none 12 "r").2.journal.map Trade.entry_price = [10] ∧
    (execute_sell ⟨[⟨"USD", 1, 0, 0, "Liquid"⟩, ⟨"TSLA", 10, 5, 0, "Open"⟩], []⟩
        "TSLA" none 12 "r").2.journal.map Trade.exit_price = [12] ∧
    (execute_sell ⟨[⟨"USD", 1, 0, 0, "Liquid"⟩, ⟨"TSLA", 10, 5, 0, "Open"⟩], []⟩
        "TSLA" none 12 "r").2.journal.map Trade.pnl_pct = [20] ∧
    (execute_sell ⟨[⟨"USD", 1, 0, 0, "Liquid"⟩, ⟨"TSLA", 10, 5, 0, "Open"⟩], []⟩
        "TSLA" none 12 "r").2.journal.map Trade.pnl_abs = [10] := by
  have step := execute_sell_full ⟨[⟨"USD", 1, 0, 0, "Liquid"⟩, ⟨"TSLA", 10, 5, 0, "Open"⟩], []⟩
    "TSLA" none 12 "r" ⟨"TSLA", 10, 5, 0, "Open"⟩ (by decide) (by norm_num) rfl
  refine ⟨?_, by decide, ?_, ?_, ?_, ?_⟩ <;>
    rw [step] <;>
    simp only [List.nil_append, List.map_cons, List.map_nil] <;>
    norm_num [round2, round_eq]

lemma seg1_floor (e : ℚ) : 1/100 ≤ seg1 e :=
  le_max_left _ _

lemma seg1_pos (e : ℚ) : 0 < seg1 e :=
  lt_of_lt_of_le (by norm_num) (seg1_floor e)

lemma seg1_ub (e : ℚ) (he : e ≤ 30) : seg1 e ≤ 20/100 := by
  unfold seg1
  exact max_le (by norm_num) (by linarith)

lemma seg1_mono {a b : ℚ} (h : a ≤ b) : seg1 a ≤ seg1 b := by
  unfold seg1
  exact max_le_max le_rfl (by linarith)

lemma seg2_mono {a b : ℚ} (h : a ≤ b) : seg2 a ≤ seg2 b := by
  unfold seg2
  linarith

lemma seg3_mono {a b : ℚ} (h : a ≤ b) : seg3 a ≤ seg3 b := by
  unfold seg3
  linarith

lemma seg4_mono {a b : ℚ} (h : a ≤ b) : seg4 a ≤ seg4 b := by
  unfold seg4
  linarith

lemma seg2_lb (e : ℚ) (he : 30 ≤ e) : 20/100 ≤ seg2 e := by
  unfold seg2
  linarith

lemma seg2_ub (e : ℚ) (he : e ≤ 90) : seg2 e ≤ 35/100 := by
  unfold seg2
  linarith

lemma seg3_lb (e : ℚ) (he : 90 ≤ e) : 35/100 ≤ seg3 e := by
  unfold seg3
  linarith

lemma seg3_ub (e : ℚ) (he : e ≤ 330) : seg3 e ≤ 75/100 := by
  unfold seg3
  linarith

lemma seg4_lb (e : ℚ) (he : 330 ≤ e) : 75/100 ≤ seg4 e := by
  unfold seg4
  linarith

lemma seg4_ub (e : ℚ) (he : e ≤ 390) : seg4 e ≤ 1 := by
  unfold seg4
  linarith

lemma uCurve_pos (e : ℕ) : 0 < uCurve e := by
  unfold uCurve
  split_ifs with h1 h2 h3
  · exact seg1_pos _
  · have : (30:ℚ) ≤ (e:ℚ) := by exact_mod_cast (by omega : (30:ℕ) ≤ e)
    linarith [seg2_lb (e:ℚ) this]
  · have : (90:ℚ) ≤ (e:ℚ) := by exact_mod_cast (by omega : (90:ℕ) ≤ e)
    linarith [seg3_lb (e:ℚ) this]
  · have : (330:ℚ) ≤ (e:ℚ) := by exact_mod_cast (by omega : (330:ℕ) ≤ e)
    linarith [seg4_lb (e:ℚ) this]

lemma uCurve_le_one (e : ℕ) (he : e ≤ 390) : uCurve e ≤ 1 := by
  unfold uCurve
  split_ifs with h1 h2 h3
  · have : (e:ℚ) ≤ 30 := by exact_mod_cast h1
    linarith [seg1_ub (e:ℚ) this]
  · have : (e:ℚ) ≤ 90 := by exact_mod_cast h2
    linarith [seg2_ub (e:ℚ) this]
  · have : (e:ℚ) ≤ 330 := by exact_mod_cast h3
    linarith [seg3_ub (e:ℚ) this]
  · have : (e:ℚ) ≤ 390 := by exact_mod_cast he
    exact seg4_ub (e:ℚ) this

lemma uCurve_succ (e : ℕ) : uCurve e ≤ uCurve (e + 1) := by
  have hcast : (e:ℚ) ≤ ((e+1 : ℕ):ℚ) := by push_cast; linarith
  by_cases h1 : e + 1 ≤ 30
  · unfold uCurve
    rw [if_pos (by omega), if_pos h1]
    exact seg1_mono hcast
  · by_cases h1' : e ≤ 30
    · have he : e = 30 := by omega
      subst he
      norm_num [uCurve, seg1, seg2]
    · by_cases h2 : e + 1 ≤ 90
      · unfold uCurve
        rw [if_neg (by omega), if_pos (by omega), if_neg (by omega), if_pos h2]
        exact seg2_mono hcast
      · by_cases h2' : e ≤ 90
        · have he : e = 90 := by omega
          subst he
          norm_num [uCurve, seg2, seg3]
        · by_cases h3 : e + 1 ≤ 330
          · unfold uCurve
            rw [if_neg (by omega), if_neg (by omega), if_pos (by omega),
              if_neg (by omega), if_neg (by omega), if_pos h3]
            exact seg3_mono hcast
          · by_cases h3' : e ≤ 330
            · have he : e = 330 := by omega
              subst he
              norm_num [uCurve, seg3, seg4]
            · unfold uCurve
              rw [if_neg (by omega), if_neg (by omega), if_neg (by omega),
                if_neg (by omega), if_neg (by omega), if_neg (by omega)]
              exact seg4_mono hcast

lemma uCurve_mono : Monotone uCurve :=
  monotone_nat_of_le_succ uCurve_succ

/-- Reduction of get_tod_weight on an in-session clock to the U-curve on
elapsed minutes. -/
lemma tod_in_session (h m : ℕ) (hm : m < 60)
    (hs : 9 * 60 + 30 ≤ h * 60 + m) (hh : h < 16) :
    get_tod_weight false h m = uCurve (h * 60 + m - (9 * 60 + 30)) := by
  unfold get_tod_weight
  rw [if_neg (by simp), if_neg (by omega), if_neg (by omega)]

lemma tod_weight_pos (b : Bool) (h m : ℕ) : 0 < get_tod_weight b h m := by
  unfold get_tod_weight
  split_ifs with hb hpre h16
  · norm_num
  · norm_num
  · norm_num
  · exact uCurve_pos _

/-- C6: the time-of-day weight equals 1.0 for a bar dated before today or
a clock outside the session; in session it is a monotone non-decreasing
function of elapsed minutes, the piecewise-linear segments agree at the
boundary minutes 30, 90 and 330, the weight always lies in (0, 1], and the
first segment is floored at 1/100, never zero. -/
theorem tod_weight_spec :
    (∀ h m : ℕ, get_tod_weight true h m = 1) ∧
    (∀ (b : Bool) (h m : ℕ), (h < 9 ∨ (h = 9 ∧ m < 30)) → get_tod_weight b h m = 1) ∧
    (∀ (b : Bool) (h m : ℕ), 16 ≤ h → get_tod_weight b h m = 1) ∧
    (∀ h1 m1 h2 m2 : ℕ, m1 < 60 → m2 < 60 →
      9 * 60 + 30 ≤ h1 * 60 + m1 → h1 < 16 →
      9 * 60 + 30 ≤ h2 * 60 + m2 → h2 < 16 →
      h1 * 60 + m1 ≤ h2 * 60 + m2 →
      get_tod_weight false h1 m1 ≤ get_tod_weight false h2 m2) ∧
    (seg1 30 = seg2 30 ∧ seg2 90 = seg3 90 ∧ seg3 330 = seg4 330) ∧
    (∀ h m : ℕ, m < 60 → 9 * 60 + 30 ≤ h * 60 + m → h < 16 →
      0 < get_tod_weight false h m ∧ get_tod_weight false h m ≤ 1) ∧
    (∀ e : ℕ, e ≤ 30 → 1/100 ≤ uCurve e) := by
  refine ⟨?_, ?_, ?_, ?_, ?_, ?_, ?_⟩
  · intro h m
    rfl
  · intro b h m hcond
    unfold get_tod_weight
    split_ifs with hb hpre h16 <;>
      first
      | rfl
      | exact absurd hcond hpre
  · intro b h m hge
    unfold get_tod_weight
    split_ifs with hb hpre h16 <;>
      first
      | rfl
      | exact absurd hge h16
  · intro h1 m1 h2 m2 hm1 hm2 hs1 hh1 hs2 hh2 hle
    rw [tod_in_session h1 m1 hm1 hs1 hh1, tod_in_session h2 m2 hm2 hs2 hh2]
    exact uCurve_mono (by omega)
  · exact ⟨by norm_num [seg1, seg2], by norm_num [seg2, seg3], by norm_num [seg3, seg4]⟩
  · intro h m hm hs hh
    rw [tod_in_session h m hm hs hh]
    exact ⟨uCurve_pos _, uCurve_le_one _ (by omega)⟩
  · intro e he
    unfold uCurve
    rw [if_pos he]
    exact seg1_floor _

/-- Witness for C6 at concrete clocks: the weight is monotone from 10:00
to 12:00, lies in (0,1] at 09:30, and is 1 at 08:00. -/
theorem tod_weight_spec_witness :
    get_tod_weight false 10 0 ≤ get_tod_weight false 12 0 ∧
    0 < get_tod_weight false 9 30 ∧
    get_tod_weight false 9 30 ≤ 1 ∧
    get_tod_weight false 8 0 = 1 := by
  refine ⟨?_, ?_, ?_, ?_⟩
  · exact tod_weight_spec.2.2.2.1 10 0 12 0 (by norm_num) (by norm_num)
      (by norm_num) (by norm_num) (by norm_num) (by norm_num) (by norm_num)
  · exact (tod_weight_spec.2.2.2.2.2.1 9 30 (by norm_num) (by norm_num) (by norm_num)).1
  · exact (tod_weight_spec.2.2.2.2.2.1 9 30 (by norm_num) (by norm_num) (by norm_num)).2
  · exact tod_weight_spec.2.1 false 8 0 (Or.inl (by norm_num))

/-- Shared reduction: get_hype_metrics is None on histories shorter than
6 bars (hype_scanner.py line 51). -/
lemma ghm_none_of_short (bars : List Bar) (b : Bool) (h m : ℕ) (t : String)
    (hlen : bars.length < 6) :
    get_hype_metrics bars b h m t = none := by
  unfold get_hype_metrics
  rw [if_pos hlen]

/-- C2 (amended): get_hype_metrics returns None for fewer than 6 bars —
the actual minimum the code enforces.  A series of 6 to 20 bars is not
guaranteed NoData: the 7-bar counterexample below returns metrics (while
other such series, e.g. with a zero close 5 bars back, still yield None). -/
theorem hype_metrics_under_6_bars_none (bars : List Bar) (b : Bool) (h m : ℕ)
    (t : String) (hlen : bars.length < 6) :
    get_hype_metrics bars b h m t = none :=
  ghm_none_of_short bars b h m t hlen

/-- Witness for C2 (amended) on a one-bar history. -/
theorem hype_metrics_under_6_bars_none_witness :
    get_hype_metrics [⟨1, 1⟩] true 0 0 "X" = none :=
  hype_metrics_under_6_bars_none [⟨1, 1⟩] true 0 0 "X" (by decide)

/-- Counterexample for C2 as frozen: a 7-bar series (fewer than 21 bars)
with nonzero volume yields metrics, not NoData — the code only requires 6
bars and averages over the up-to-20 available previous bars. -/
theorem hype_metrics_under_21_bars_counterexample :
    bars7.length < 21 ∧ (get_hype_metrics bars7 true 0 0 "X").isSome = true := by
  constructor
  · decide
  · have h1 : ¬ (bars7.length < 6) := by decide
    have h2 : ¬ ((Option.map Bar.close bars7[bars7.length - 6]?).getD 0 = 0) := by decide
    have h3 : ¬ (avg_vol bars7 = 0) := by
      norm_num [avg_vol, prevVols, bars7, List.dropLast]
    simp only [get_hype_metrics]
    rw [if_neg h1, if_neg h2, if_neg h3]
    rfl

/-- C8: a trailing-average volume of exactly 0 yields NoData, and whenever
metrics are returned (volumes being nonnegative), the expected volume that
the RVOL division uses is strictly positive — the division never runs on a
zero (or negative) denominator, and the guarded `else 0` branch is dead. -/
theorem rvol_zero_avg_none_and_no_div_by_zero :
    (∀ (bars : List Bar) (b : Bool) (h m : ℕ) (t : String),
      avg_vol bars = 0 → get_hype_metrics bars b h m t = none) ∧
    (∀ (bars : List Bar) (b : Bool) (h m : ℕ) (t : String) (metr : HypeMetrics),
      (∀ x ∈ bars, 0 ≤ x.volume) →
      get_hype_metrics bars b h m t = some metr →
      0 < expected_vol bars b h m ∧
      metr.rvol = round2 (current_vol bars / expected_vol bars b h m)) := by
  constructor
  · intro bars b h m t havg
    by_cases h1 : bars.length < 6
    · exact ghm_none_of_short bars b h m t h1
    · simp only [get_hype_metrics]
      rw [if_neg h1]
      by_cases h2 : (Option.map Bar.close bars[bars.length - 6]?).getD 0 = 0
      · rw [if_pos h2]
      · rw [if_neg h2, if_pos havg]
  · intro bars b h m t metr hvol hsome
    by_cases h1 : bars.length < 6
    · rw [ghm_none_of_short bars b h m t h1] at hsome
      exact Option.noConfusion hsome
    · simp only [get_hype_metrics] at hsome
      rw [if_neg h1] at hsome
      by_cases h2 : (Option.map Bar.close bars[bars.length - 6]?).getD 0 = 0
      · rw [if_pos h2] at hsome
        exact Option.noConfusion hsome
      · rw [if_neg h2] at hsome
        by_cases h3 : avg_vol bars = 0
        · rw [if_pos h3] at hsome
          exact Option.noConfusion hsome
        · rw [if_neg h3] at hsome
          have hsum : 0 ≤ (prevVols bars).sum := by
            apply List.sum_nonneg
            intro x hx
            unfold prevVols at hx
            have hx1 : x ∈ bars.dropLast.map Bar.volume := List.mem_of_mem_drop hx
            rcases List.mem_map.mp hx1 with ⟨bb, hbb, hbx⟩
            have hbmem : bb ∈ bars := (List.dropLast_sublist bars).subset hbb
            rw [← hbx]
            exact hvol bb hbmem
          have havg_nonneg : 0 ≤ avg_vol bars := by
            unfold avg_vol
            apply div_nonneg hsum
            positivity
          have havg_pos : 0 < avg_vol bars := lt_of_le_of_ne havg_nonneg (Ne.symm h3)
          have hev : 0 < expected_vol bars b h m :=
            mul_pos havg_pos (tod_weight_pos b h m)
          refine ⟨hev, ?_⟩
          injection hsome with hmetr
          rw [← hmetr]
          show round2 (if 0 < expected_vol bars b h m
            then current_vol bars / expected_vol bars b h m else 0) = _
          rw [if_pos hev]

/-- Witness for C8: six bars of zero volume have trailing average 0 and
produce NoData. -/
theorem rvol_zero_avg_none_witness :
    get_hype_metrics barsZ6 true 0 0 "Z" = none :=
  rvol_zero_avg_none_and_no_div_by_zero.1 barsZ6 true 0 0 "Z"
    (by norm_num [avg_vol, prevVols, barsZ6, List.dropLast])

lemma pyInt_eq_floor (x : ℚ) (h : 0 ≤ x) : pyInt x = ⌊x⌋ := by
  unfold pyInt
  rw [Rat.floor_def]
  exact Int.tdiv_eq_ediv (Rat.num_nonneg.mpr h) (by positivity)

/-- Counterexample for C7 as frozen: on a gapping two-bar history the
code's ATR (mean of high−low) is 1 while the claimed True-Range ATR is 3,
and the computed stop (7) differs from the stop the claim's formula
yields (3). -/
theorem atr_true_range_counterexample :
    atr_hl [⟨10, 9, 5⟩, ⟨10, 9, 9⟩] = 1 ∧
    spec_atr [⟨10, 9, 5⟩, ⟨10, 9, 9⟩] = 3 ∧
    atr_hl [⟨10, 9, 5⟩, ⟨10, 9, 9⟩] ≠ spec_atr [⟨10, 9, 5⟩, ⟨10, 9, 9⟩] ∧
    (tab_risk_calc [⟨10, 9, 5⟩, ⟨10, 9, 9⟩] 1 10000 1).stop_eur = 7 ∧
    (((([⟨10, 9, 5⟩, ⟨10, 9, 9⟩] : List RiskBar).getLast?).map RiskBar.close).getD 0
      - spec_atr [⟨10, 9, 5⟩, ⟨10, 9, 9⟩] * 2 : ℚ) = 3 := by
  have hhl : atr_hl [⟨10, 9, 5⟩, ⟨10, 9, 9⟩] = 1 := by
    norm_num [atr_hl]
  have hspec : spec_atr [⟨10, 9, 5⟩, ⟨10, 9, 9⟩] = 3 := by
    norm_num [spec_atr, spec_trAux, spec_trueRange]
  refine ⟨hhl, hspec, by rw [hhl, hspec]; norm_num, ?_, ?_⟩
  · norm_num [tab_risk_calc, atr_hl, round2, round_eq, List.getLast?]
  · rw [hspec]
    norm_num [List.getLast?]

/-- C7 (amended): the ATR the code uses is the simple mean of high−low
over the window (the previous close plays no part in it); the stop is
current close − ATR×2 (after EUR conversion) and the position size is
floor(risk amount / (price − stop)) when that denominator is positive and
0 otherwise, hence never negative and never dividing by zero.  Note
price_eur − stop_eur = atr_hl×fx×2 by construction. -/
theorem atr_sizing_spec (bars : List RiskBar) (fx acc_size risk_pct : ℚ)
    (hrisk : 0 ≤ acc_size * (risk_pct / 100)) :
    atr_hl bars * (bars.length : ℚ) = (bars.map (fun b => b.high - b.low)).sum ∧
    (tab_risk_calc bars fx acc_size risk_pct).stop_eur =
      round2 ((((bars.getLast?).map RiskBar.close).getD 0) * fx - atr_hl bars * fx * 2) ∧
    (0 < atr_hl bars * fx * 2 →
      (tab_risk_calc bars fx acc_size risk_pct).shares =
        ⌊acc_size * (risk_pct / 100) / (atr_hl bars * fx * 2)⌋) ∧
    (atr_hl bars * fx * 2 ≤ 0 →
      (tab_risk_calc bars fx acc_size risk_pct).shares = 0) ∧
    0 ≤ (tab_risk_calc bars fx acc_size risk_pct).shares := by
  refine ⟨?_, ?_, ?_, ?_, ?_⟩
  · cases bars with
    | nil => simp [atr_hl]
    | cons b rest =>
      unfold atr_hl
      rw [div_mul_cancel₀]
      intro hc
      have hp : (0:ℚ) < (rest.length : ℚ) + 1 := by positivity
      rw [List.length_cons] at hc
      push_cast at hc
      linarith
  · simp only [tab_risk_calc]
  · intro hpos
    simp only [tab_risk_calc, sub_sub_cancel]
    rw [if_pos hpos, pyInt_eq_floor _ (div_nonneg hrisk (le_of_lt hpos))]
  · intro hnonpos
    simp only [tab_risk_calc, sub_sub_cancel]
    rw [if_neg (not_lt.mpr hnonpos)]
  · by_cases hpos : 0 < atr_hl bars * fx * 2
    · simp only [tab_risk_calc, sub_sub_cancel]
      rw [if_pos hpos, pyInt_eq_floor _ (div_nonneg hrisk (le_of_lt hpos))]
      exact Int.floor_nonneg.mpr (div_nonneg hrisk (le_of_lt hpos))
    · simp only [tab_risk_calc, sub_sub_cancel]
      rw [if_neg hpos]

/-- Witness for C7 (amended) at the spec §8 example: close 50, ATR 2,
multiplier 2, risk 1% of 10000 → 25 shares. -/
theorem atr_sizing_spec_witness :
    (tab_risk_calc [⟨51, 49, 50⟩, ⟨52, 50, 50⟩] 1 10000 1).shares = 25 := by
  have h := atr_sizing_spec [⟨51, 49, 50⟩, ⟨52, 50, 50⟩] 1 10000 1 (by norm_num)
  have hatr : atr_hl [(⟨51, 49, 50⟩ : RiskBar), ⟨52, 50, 50⟩] = 2 := by
    norm_num [atr_hl]
  rw [h.2.2.1 (by rw [hatr]; norm_num), hatr]
  norm_num

end HypeHunter
